import Mathlib

/-!
Verification of the backupmate backup/restore orchestration engine.

The Python modules `backupmate/backup.py`, `backupmate/restore.py`,
`backupmate/utils.py` and `backupmate/s3.py` are shallowly embedded below.
External collaborators (the mariadb backup tool, S3 transfer, the server
controller, the sqlite registry connection) are modelled by boolean
outcome flags supplied in an environment record; the orchestration
functions thread an explicit system state (the local chain directory and
the metadata registry) and emit a trace of the external calls they make,
in program order.
-/

namespace Backupmate

/-- Configuration values read via `config.get(...)` in the source. -/
structure Config where
  localTempDir : String
  fullBackupPrefix : String
  incrementalBackupPrefix : String
  s3BucketName : String
deriving DecidableEq, Repr

/-- One row of the `backups` sqlite table created by `_init_db`
(`backup.py`): `(backup_type, backup_prefix, local_path, timestamp,
status)`.  The `timestamp` column (`CURRENT_TIMESTAMP` at insertion) is
modelled as a natural number supplied by the caller. -/
structure BackupRecord where
  backupType : String
  backupPrefix : String
  localPath : Option String
  timestamp : Nat
  status : String
deriving DecidableEq, Repr

/-- A subdirectory of the chain root `LOCAL_TEMP_DIR/chain`.
`os.makedirs(backup_dir)` creates the (empty) directory; the later
`shutil.copytree(temp_dir, backup_dir, dirs_exist_ok=True)` fills it, which
is recorded by the `populated` flag. -/
structure ChainMember where
  name : String
  populated : Bool
deriving DecidableEq, Repr

/-- The on-disk chain directory plus the metadata registry. -/
structure SysState where
  chain : List ChainMember
  records : List BackupRecord
deriving DecidableEq, Repr

/-- Full path of a chain member, as built in `backup.py`
(`os.path.join(config.get('LOCAL_TEMP_DIR'), 'chain')` joined with the
member name). -/
def chainPath (cfg : Config) (name : String) : String :=
  cfg.localTempDir ++ "/chain/" ++ name

/-- `os.makedirs(backup_dir, exist_ok=True)`: create the member directory
if absent, otherwise leave the chain unchanged. -/
def addMember (st : SysState) (name : String) : SysState :=
  if st.chain.any (fun m => m.name = name) then st
  else { st with chain := st.chain ++ [⟨name, false⟩] }

/-- `shutil.copytree(temp_dir, backup_dir, dirs_exist_ok=True)`: the member
directory now holds the prepared backup contents. -/
def populateMember (st : SysState) (name : String) : SysState :=
  { st with chain := st.chain.map (fun m =>
      if m.name = name then ⟨m.name, true⟩ else m) }

/-- `os.path.exists` restricted to the world this model tracks: the only
directories that persist across operations are chain members. -/
def pathExists (cfg : Config) (st : SysState) (p : String) : Bool :=
  st.chain.any (fun m => chainPath cfg m.name = p)

/-- `get_latest_local_backup` (`backup.py`): the `local_path` of the
record with `local_path IS NOT NULL` and the greatest `timestamp`
(`ORDER BY timestamp DESC LIMIT 1`; on equal timestamps the
later-inserted row is taken).  The list head is the earliest-inserted
row, so the head only beats the best of the tail on a strictly greater
timestamp. -/
def bestLocalRecord : List BackupRecord → Option BackupRecord
  | [] => none
  | r :: rs =>
    match bestLocalRecord rs with
    | none => if r.localPath.isSome then some r else none
    | some b =>
      if r.localPath.isSome ∧ b.timestamp < r.timestamp then some r else some b

def get_latest_local_backup (rs : List BackupRecord) : Option String :=
  (bestLocalRecord rs).bind (fun r => r.localPath)

/-- `record_backup_metadata` (`backup.py`): insert one row with
`status='success'`; on a registry exception nothing is inserted and
`False` is returned.  The boolean `ok` is the registry outcome. -/
def record_backup_metadata (ok : Bool) (st : SysState) (btype bpref : String)
    (lpath : Option String) (now : Nat) : SysState :=
  if ok then
    { st with records := st.records ++ [⟨btype, bpref, lpath, now, "success"⟩] }
  else st

/-- Outcomes of the external calls made during one backup operation.
`copyOk = false` models `shutil.copytree` raising (caught by the outer
`except`); `rmStagingOk`/`rmArchiveOk` are the cleanup `rmtree`/`remove`
outcomes in the `finally` block (an `OSError` there is logged only). -/
structure BackupEnv where
  takeFullOk : Bool
  takeIncOk : Bool
  prepareOk : Bool
  copyOk : Bool
  compressOk : Bool
  uploadOk : Bool
  recordOk : Bool
  rmStagingOk : Bool
  rmArchiveOk : Bool
deriving DecidableEq, Repr

/-- Trace events of one backup operation, in program order. -/
inductive BEvent
  | cleanChain
  | mkStaging (path : String)
  | mkMemberDir (path : String)
  | takeFull (ok : Bool)
  | takeIncremental (base : String) (ok : Bool)
  | prepare (ok : Bool)
  | copyChain (ok : Bool)
  | compress (ok : Bool)
  | upload (key : String) (ok : Bool)
  | recordMeta (ok : Bool)
  | rmStaging (ok : Bool)
  | rmArchive (ok : Bool)
deriving DecidableEq, Repr

/-- The `finally` block of both backup functions: always attempt to remove
the staging directory (it was created at operation start and still
exists); attempt to remove the archive file only when it exists, i.e. when
compression ran and succeeded.  Failures are logged and never change the
returned result. -/
def backupCleanup (env : BackupEnv) (archiveExists : Bool) : List BEvent :=
  BEvent.rmStaging env.rmStagingOk ::
    (if archiveExists then [BEvent.rmArchive env.rmArchiveOk] else [])

/-- `perform_full_backup` (`backup.py` lines 55-139).  Returns the boolean
result, the final system state, and the trace of external calls.  `ts` is
the operation's `datetime.now()` timestamp (used for the staging and
member directory names and for the registry row). -/
def perform_full_backup (cfg : Config) (env : BackupEnv) (ts : Nat)
    (st : SysState) : Bool × SysState × List BEvent :=
  let name := "full_" ++ toString ts
  let stagingDir := cfg.localTempDir ++ "/full_" ++ toString ts
  -- _clean_backup_chain: rmtree the chain root and recreate it empty
  let st1 : SysState := { st with chain := [] }
  -- os.makedirs(temp_dir); os.makedirs(backup_dir)
  let st2 := addMember st1 name
  let evs0 := [BEvent.cleanChain, BEvent.mkStaging stagingDir,
               BEvent.mkMemberDir (chainPath cfg name)]
  if !env.takeFullOk then
    (false, st2, evs0 ++ [BEvent.takeFull false] ++ backupCleanup env false)
  else if !env.prepareOk then
    (false, st2, evs0 ++ [BEvent.takeFull true, BEvent.prepare false]
      ++ backupCleanup env false)
  else if !env.copyOk then
    -- copytree raised; the outer except returns False, finally still runs
    (false, st2, evs0 ++ [BEvent.takeFull true, BEvent.prepare true,
      BEvent.copyChain false] ++ backupCleanup env false)
  else
    let st3 := populateMember st2 name
    let evs1 := evs0 ++ [BEvent.takeFull true, BEvent.prepare true,
      BEvent.copyChain true]
    if !env.compressOk then
      (false, st3, evs1 ++ [BEvent.compress false] ++ backupCleanup env false)
    else if !env.uploadOk then
      (false, st3, evs1 ++ [BEvent.compress true,
        BEvent.upload cfg.fullBackupPrefix false] ++ backupCleanup env true)
    else
      -- record_backup_metadata's result is not checked by the caller
      let st4 := record_backup_metadata env.recordOk st3 "full"
        cfg.fullBackupPrefix (some (chainPath cfg name)) ts
      (true, st4, evs1 ++ [BEvent.compress true,
        BEvent.upload cfg.fullBackupPrefix true,
        BEvent.recordMeta env.recordOk] ++ backupCleanup env true)

/-- The base-selection guard of `perform_incremental_backup`:
`base_dir = get_latest_local_backup(config)` followed by
`if not base_dir or not os.path.exists(base_dir)`.  The existence check
runs after `os.makedirs(backup_dir)`, hence against the chain with the
new (still empty) member directory already created. -/
def incrementalBaseFound (cfg : Config) (ts : Nat) (st : SysState) :
    Option String :=
  match get_latest_local_backup st.records with
  | none => none
  | some p =>
    if pathExists cfg (addMember st ("inc_" ++ toString ts)) p then some p
    else none

/-- `perform_incremental_backup` (`backup.py` lines 141-222).  Note that
`os.makedirs(backup_dir)` creates the chain member directory before the
base lookup, and that the base lookup goes through the metadata registry
(`get_latest_local_backup`) followed by an `os.path.exists` check. -/
def perform_incremental_backup (cfg : Config) (env : BackupEnv) (ts : Nat)
    (st : SysState) : Bool × SysState × List BEvent :=
  let name := "inc_" ++ toString ts
  let stagingDir := cfg.localTempDir ++ "/inc_" ++ toString ts
  -- os.makedirs(temp_dir); os.makedirs(backup_dir)
  let st1 := addMember st name
  let evs0 := [BEvent.mkStaging stagingDir,
               BEvent.mkMemberDir (chainPath cfg name)]
  match incrementalBaseFound cfg ts st with
  | none =>
    (false, st1, evs0 ++ backupCleanup env false)
  | some base =>
    if !env.takeIncOk then
      (false, st1, evs0 ++ [BEvent.takeIncremental base false]
        ++ backupCleanup env false)
    else if !env.copyOk then
      (false, st1, evs0 ++ [BEvent.takeIncremental base true,
        BEvent.copyChain false] ++ backupCleanup env false)
    else
      let st2 := populateMember st1 name
      let evs1 := evs0 ++ [BEvent.takeIncremental base true,
        BEvent.copyChain true]
      if !env.compressOk then
        (false, st2, evs1 ++ [BEvent.compress false] ++ backupCleanup env false)
      else if !env.uploadOk then
        (false, st2, evs1 ++ [BEvent.compress true,
          BEvent.upload cfg.incrementalBackupPrefix false]
          ++ backupCleanup env true)
      else
        let st3 := record_backup_metadata env.recordOk st2 "incremental"
          cfg.incrementalBackupPrefix (some (chainPath cfg name)) ts
        (true, st3, evs1 ++ [BEvent.compress true,
          BEvent.upload cfg.incrementalBackupPrefix true,
          BEvent.recordMeta env.recordOk] ++ backupCleanup env true)

/-! ### Archive decompression (`utils.py`) -/

/-- Python substring test `pat in s`, over names modelled as `List Char`. -/
def hasSub (pat : List Char) : List Char → Bool
  | [] => pat.isEmpty
  | c :: t => pat.isPrefixOf (c :: t) || hasSub pat t

/-- The member check in `decompress_archive`:
`member.name.startswith('/') or '..' in member.name`. -/
def suspiciousName (name : List Char) : Bool :=
  (name.head?).any (fun c => c = '/') || hasSub ['.', '.'] name

/-- The pre-extraction loop of `decompress_archive`: `ValueError` is
raised on the first suspicious member, before `extractall` runs. -/
def checkMembers : List (List Char) → Bool
  | [] => true
  | m :: rest => if suspiciousName m then false else checkMembers rest

/-- `decompress_archive` (`utils.py` lines 39-75), over an archive
modelled as its list of member names.  Returns the success flag and the
list of extracted members: everything is extracted when every member
passes the check, and nothing at all otherwise (the raised `ValueError`
is caught and `False` returned). -/
def decompress_archive (members : List (List Char)) :
    Bool × List (List Char) :=
  if checkMembers members then (true, members) else (false, [])

/-! ### Restore orchestration (`restore.py`) -/

/-- Result of `mariadb.restore_backup`, which can return `True`, return
`False`, or raise. -/
inductive Outcome
  | ok
  | fail
  | exn
deriving DecidableEq, Repr

/-- Outcomes of the external calls made during one restore operation. -/
structure RestoreEnv where
  bucketConfigured : Bool
  downloadOk : Bool
  downloadedFileFound : Bool
  extractOk : Bool
  prepareOk : Bool
  stopOk : Bool
  restoreOutcome : Outcome
  startOk : Bool
  isTest : Bool
  pollOk : Bool
deriving DecidableEq, Repr

/-- Trace events of one restore operation, in program order.
`rmStaging` is in the alphabet so that "no removal was attempted" is a
statement about the trace; `restore.py` has no cleanup code, so the
embedding never emits it. -/
inductive REvent
  | mkStaging (path : String)
  | download (ok : Bool)
  | extract (ok : Bool)
  | prepare (ok : Bool)
  | stop (ok : Bool)
  | restoreCall
  | start (ok : Bool)
  | poll (ok : Bool)
  | rmStaging (ok : Bool)
deriving DecidableEq, Repr

/-- `download_and_prepare_backup` (`restore.py` lines 99-152): bucket
config check, S3 download, downloaded-file existence check, archive
extraction, backup preparation; the first failure aborts with `False`. -/
def download_and_prepare_backup (env : RestoreEnv) : Bool × List REvent :=
  if !env.bucketConfigured then (false, [])
  else if !env.downloadOk then (false, [REvent.download false])
  else if !env.downloadedFileFound then (false, [REvent.download true])
  else if !env.extractOk then
    (false, [REvent.download true, REvent.extract false])
  else if !env.prepareOk then
    (false, [REvent.download true, REvent.extract true, REvent.prepare false])
  else
    (true, [REvent.download true, REvent.extract true, REvent.prepare true])

/-- `'copy-back'`/`'move-back'` membership check at the top of
`restore_specific_backup`. -/
def validMethod (m : String) : Bool :=
  m = "copy-back" || m = "move-back"

/-- `restore_specific_backup` (`restore.py` lines 13-97).  The staging
directory is `config.get('LOCAL_TEMP_DIR', ...)` itself, created with
`exist_ok=True` and never removed.  The inner `try/finally` always calls
`start_mariadb_server` once `stop_mariadb_server` succeeded; a `False`
from the restore step survives the `finally` unless the `finally` itself
returns `False` (start failure or exhausted liveness poll); an exception
from the restore step propagates after the `finally` and is converted to
`False` by the outer `except`. -/
def restore_specific_backup (cfg : Config) (method : String)
    (env : RestoreEnv) : Bool × List REvent :=
  if !validMethod method then (false, [])
  else
    let evs0 := [REvent.mkStaging cfg.localTempDir]
    let (prepOk, t1) := download_and_prepare_backup env
    if !prepOk then (false, evs0 ++ t1)
    else if !env.stopOk then (false, evs0 ++ t1 ++ [REvent.stop false])
    else
      let t2 := evs0 ++ t1 ++ [REvent.stop true, REvent.restoreCall]
      -- finally: always attempt to start the server
      let t3 := t2 ++ [REvent.start env.startOk]
      if !env.startOk then (false, t3)
      else if env.isTest then
        (match env.restoreOutcome with
          | Outcome.ok => (true, t3)
          | Outcome.fail => (false, t3)
          | Outcome.exn => (false, t3))
      else
        let t4 := t3 ++ [REvent.poll env.pollOk]
        if !env.pollOk then (false, t4)
        else
          (match env.restoreOutcome with
            | Outcome.ok => (true, t4)
            | Outcome.fail => (false, t4)
            | Outcome.exn => (false, t4))

/-! ### Trace observations -/

/-- Keys of the successful `s3.upload_file` calls in a backup trace. -/
def uploadKeys (tr : List BEvent) : List String :=
  tr.filterMap (fun e => match e with
    | BEvent.upload k true => some k
    | _ => none)

/-- Did some `s3.upload_file` call succeed in this trace? -/
def uploadSucceeded (tr : List BEvent) : Bool :=
  tr.any (fun e => match e with
    | BEvent.upload _ true => true
    | _ => false)

/-- Was `mariadb.take_incremental_backup` invoked in this trace? -/
def tookIncremental (tr : List BEvent) : Bool :=
  tr.any (fun e => match e with
    | BEvent.takeIncremental _ _ => true
    | _ => false)

/-- Was removal of the staging directory attempted in this trace? -/
def stagingRemovalAttempted (tr : List BEvent) : Bool :=
  tr.any (fun e => match e with
    | BEvent.rmStaging _ => true
    | _ => false)

/-- Is this backup-trace event a cleanup attempt? -/
def isCleanupEvent : BEvent → Bool
  | BEvent.rmStaging _ => true
  | BEvent.rmArchive _ => true
  | _ => false

/-- Number of `start_mariadb_server` invocations in a restore trace. -/
def countStart (tr : List REvent) : Nat :=
  tr.countP (fun e => match e with
    | REvent.start _ => true
    | _ => false)

/-- Was `stop_mariadb_server` invoked in this restore trace? -/
def stopAttempted (tr : List REvent) : Bool :=
  tr.any (fun e => match e with
    | REvent.stop _ => true
    | _ => false)

/-- Was removal of the restore staging directory attempted? -/
def restoreRemovalAttempted (tr : List REvent) : Bool :=
  tr.any (fun e => match e with
    | REvent.rmStaging _ => true
    | _ => false)

/-- `true` iff any `start` event in the trace is preceded by a successful
`stop` event. -/
def stopSuccessBeforeStart : List REvent → Bool
  | [] => true
  | REvent.start _ :: _ => false
  | REvent.stop true :: _ => true
  | _ :: t => stopSuccessBeforeStart t

/-- All five steps of the download/decompress/prepare phase of
`restore_specific_backup` succeed. -/
def prepPhaseOk (env : RestoreEnv) : Bool :=
  env.bucketConfigured && env.downloadOk && env.downloadedFileFound &&
    env.extractOk && env.prepareOk

/-! ### Concrete fixtures -/

/-- A concrete configuration (prefixes end in `/`, as `validate_config`
enforces). -/
def cfg0 : Config :=
  ⟨"/tmp/backupmate", "backups/full/", "backups/inc/", "bm-bucket"⟩

/-- Fresh install: empty chain, empty registry. -/
def st0 : SysState := ⟨[], []⟩

/-- Every external backup call succeeds. -/
def envAllOk : BackupEnv :=
  ⟨true, true, true, true, true, true, true, true, true⟩

/-- Every external restore call succeeds. -/
def renvAllOk : RestoreEnv :=
  ⟨true, true, true, true, true, true, Outcome.ok, true, false, true⟩

/-- Every call succeeds except the registry write. -/
def envRecFail : BackupEnv := { envAllOk with recordOk := false }

/-- Every call succeeds except the backup tool's full-backup step. -/
def envTakeFail : BackupEnv := { envAllOk with takeFullOk := false }

/-- Every call succeeds except the archive upload. -/
def envUploadFail : BackupEnv := { envAllOk with uploadOk := false }

/-- A state holding one fully recorded full backup whose chain member is
still on disk. -/
def stOneFull : SysState :=
  ⟨[⟨"full_1", true⟩],
   [⟨"full", "backups/full/", some "/tmp/backupmate/chain/full_1", 1,
     "success"⟩]⟩

/-! ### Helper lemmas -/

@[simp] theorem addMember_records (st : SysState) (n : String) :
    (addMember st n).records = st.records := by
  unfold addMember
  split <;> rfl

@[simp] theorem populateMember_records (st : SysState) (n : String) :
    (populateMember st n).records = st.records := rfl

/-- Registry contents after `perform_full_backup`: one `success` row is
appended exactly when every step up to the upload and the registry write
itself succeeded. -/
theorem full_records_eq (cfg : Config) (env : BackupEnv) (ts : Nat)
    (st : SysState) :
    (perform_full_backup cfg env ts st).2.1.records =
      if env.takeFullOk && env.prepareOk && env.copyOk && env.compressOk &&
          env.uploadOk && env.recordOk then
        st.records ++ [⟨"full", cfg.fullBackupPrefix,
          some (chainPath cfg ("full_" ++ toString ts)), ts, "success"⟩]
      else st.records := by
  obtain ⟨tf, ti, pp, cp, cm, up, rc, r1, r2⟩ := env
  cases tf <;> cases pp <;> cases cp <;> cases cm <;> cases up <;>
    cases rc <;> simp [perform_full_backup, record_backup_metadata]

/-- The full-backup upload succeeds exactly when every step up to and
including the upload succeeded. -/
theorem full_upload_eq (cfg : Config) (env : BackupEnv) (ts : Nat)
    (st : SysState) :
    uploadSucceeded (perform_full_backup cfg env ts st).2.2 =
      (env.takeFullOk && env.prepareOk && env.copyOk && env.compressOk &&
        env.uploadOk) := by
  obtain ⟨tf, ti, pp, cp, cm, up, rc, r1, r2⟩ := env
  cases tf <;> cases pp <;> cases cp <;> cases cm <;> cases up <;>
    simp [perform_full_backup, uploadSucceeded, backupCleanup]

/-- Registry contents after `perform_incremental_backup`. -/
theorem inc_records_eq (cfg : Config) (env : BackupEnv) (ts : Nat)
    (st : SysState) :
    (perform_incremental_backup cfg env ts st).2.1.records =
      if (incrementalBaseFound cfg ts st).isSome && env.takeIncOk &&
          env.copyOk && env.compressOk && env.uploadOk && env.recordOk then
        st.records ++ [⟨"incremental", cfg.incrementalBackupPrefix,
          some (chainPath cfg ("inc_" ++ toString ts)), ts, "success"⟩]
      else st.records := by
  obtain ⟨tf, ti, pp, cp, cm, up, rc, r1, r2⟩ := env
  rcases hb : incrementalBaseFound cfg ts st with _ | base <;>
    cases ti <;> cases cp <;> cases cm <;> cases up <;> cases rc <;>
      simp [perform_incremental_backup, hb, record_backup_metadata]

/-- The incremental-backup upload succeeds exactly when a base was found
and every step up to and including the upload succeeded. -/
theorem inc_upload_eq (cfg : Config) (env : BackupEnv) (ts : Nat)
    (st : SysState) :
    uploadSucceeded (perform_incremental_backup cfg env ts st).2.2 =
      ((incrementalBaseFound cfg ts st).isSome && env.takeIncOk &&
        env.copyOk && env.compressOk && env.uploadOk) := by
  obtain ⟨tf, ti, pp, cp, cm, up, rc, r1, r2⟩ := env
  rcases hb : incrementalBaseFound cfg ts st with _ | base <;>
    cases ti <;> cases cp <;> cases cm <;> cases up <;>
      simp [perform_incremental_backup, hb, uploadSucceeded, backupCleanup]

theorem map_populate_id (l : List ChainMember) (name : String)
    (h : ∀ m ∈ l, m.name ≠ name) :
    l.map (fun m => if m.name = name then ChainMember.mk m.name true else m)
      = l := by
  induction l with
  | nil => rfl
  | cons a t ih =>
    have ha := h a (List.mem_cons_self a t)
    simp [ha, ih (fun m hm => h m (List.mem_cons_of_mem a hm))]

/-- Chain contents after `perform_full_backup`: the previous chain is
destroyed, the new member directory exists in every case, and it is
populated exactly when the tool, prepare and copy steps all succeeded. -/
theorem full_chain_eq (cfg : Config) (env : BackupEnv) (ts : Nat)
    (st : SysState) :
    (perform_full_backup cfg env ts st).2.1.chain =
      [⟨"full_" ++ toString ts,
        env.takeFullOk && env.prepareOk && env.copyOk⟩] := by
  obtain ⟨tf, ti, pp, cp, cm, up, rc, r1, r2⟩ := env
  cases tf <;> cases pp <;> cases cp <;> cases cm <;> cases up <;>
    cases rc <;>
    simp [perform_full_backup, addMember, populateMember,
      record_backup_metadata]

/-- Chain contents after `perform_incremental_backup`, provided the new
member name is fresh: previous members survive untouched, the new member
directory exists in every case, and it is populated exactly when a base
was found and the tool and copy steps succeeded. -/
theorem inc_chain_eq (cfg : Config) (env : BackupEnv) (ts : Nat)
    (st : SysState)
    (hfresh : ∀ m ∈ st.chain, m.name ≠ "inc_" ++ toString ts) :
    (perform_incremental_backup cfg env ts st).2.1.chain =
      st.chain ++ [⟨"inc_" ++ toString ts,
        (incrementalBaseFound cfg ts st).isSome && env.takeIncOk &&
          env.copyOk⟩] := by
  have hany : st.chain.any (fun m => m.name = "inc_" ++ toString ts)
      = false := by
    rw [List.any_eq_false]
    intro m hm
    simpa using hfresh m hm
  obtain ⟨tf, ti, pp, cp, cm, up, rc, r1, r2⟩ := env
  rcases hb : incrementalBaseFound cfg ts st with _ | base <;>
    cases ti <;> cases cp <;> cases cm <;> cases up <;> cases rc <;>
      simp [perform_incremental_backup, hb, addMember, hany,
        populateMember, record_backup_metadata, map_populate_id _ _ hfresh]

theorem bestLocalRecord_mem {rs : List BackupRecord} {r : BackupRecord}
    (h : bestLocalRecord rs = some r) : r ∈ rs := by
  induction rs with
  | nil => simp [bestLocalRecord] at h
  | cons a t ih =>
    rw [bestLocalRecord] at h
    rcases hb : bestLocalRecord t with _ | b <;> rw [hb] at h
    · have h' : (if a.localPath.isSome = true then some a else none)
          = some r := h
      by_cases ha : a.localPath.isSome = true
      · rw [if_pos ha] at h'
        injection h' with h2
        subst h2
        exact List.mem_cons_self a t
      · rw [if_neg ha] at h'
        cases h'
    · have h' : (if a.localPath.isSome = true ∧ b.timestamp < a.timestamp
          then some a else some b) = some r := h
      by_cases hab : a.localPath.isSome = true ∧ b.timestamp < a.timestamp
      · rw [if_pos hab] at h'
        injection h' with h2
        subst h2
        exact List.mem_cons_self a t
      · rw [if_neg hab] at h'
        injection h' with h2
        subst h2
        exact List.mem_cons_of_mem a (ih hb)

theorem get_latest_local_backup_mem {rs : List BackupRecord} {p : String}
    (h : get_latest_local_backup rs = some p) :
    ∃ r ∈ rs, r.localPath = some p := by
  unfold get_latest_local_backup at h
  rcases hb : bestLocalRecord rs with _ | r <;> rw [hb] at h
  · cases h
  · exact ⟨r, bestLocalRecord_mem hb, h⟩

/-- When the base guard fails, the incremental backup returns failure and
the backup tool is never invoked. -/
theorem inc_nobase_no_tool (cfg : Config) (env : BackupEnv) (ts : Nat)
    (st : SysState) (h : incrementalBaseFound cfg ts st = none) :
    (perform_incremental_backup cfg env ts st).1 = false ∧
      tookIncremental (perform_incremental_backup cfg env ts st).2.2
        = false := by
  simp [perform_incremental_backup, h, tookIncremental, backupCleanup]

/-- The result of a full backup is the conjunction of the tool, prepare,
copy, compress and upload outcomes; the registry and cleanup outcomes do
not matter. -/
theorem full_result_eq (cfg : Config) (env : BackupEnv) (ts : Nat)
    (st : SysState) :
    (perform_full_backup cfg env ts st).1 =
      (env.takeFullOk && env.prepareOk && env.copyOk && env.compressOk &&
        env.uploadOk) := by
  obtain ⟨tf, ti, pp, cp, cm, up, rc, r1, r2⟩ := env
  cases tf <;> cases pp <;> cases cp <;> cases cm <;> cases up <;>
    simp [perform_full_backup]

/-- The result of an incremental backup. -/
theorem inc_result_eq (cfg : Config) (env : BackupEnv) (ts : Nat)
    (st : SysState) :
    (perform_incremental_backup cfg env ts st).1 =
      ((incrementalBaseFound cfg ts st).isSome && env.takeIncOk &&
        env.copyOk && env.compressOk && env.uploadOk) := by
  obtain ⟨tf, ti, pp, cp, cm, up, rc, r1, r2⟩ := env
  rcases hb : incrementalBaseFound cfg ts st with _ | base <;>
    cases ti <;> cases cp <;> cases cm <;> cases up <;>
      simp [perform_incremental_backup, hb]

theorem dl_no_removal (env : RestoreEnv) :
    restoreRemovalAttempted (download_and_prepare_backup env).2 = false := by
  obtain ⟨b1, b2, b3, b4, b5, b6, oc, b7, b8, b9⟩ := env
  cases b1 <;> cases b2 <;> cases b3 <;> cases b4 <;> cases b5 <;>
    simp [download_and_prepare_backup, restoreRemovalAttempted]

/-- `restore_specific_backup` never attempts to remove its staging
directory: `restore.py` contains no cleanup code. -/
theorem restore_trace_no_removal (cfg : Config) (method : String)
    (env : RestoreEnv) :
    restoreRemovalAttempted (restore_specific_backup cfg method env).2
      = false := by
  by_cases hm : validMethod method = true
  · have hdl := dl_no_removal env
    unfold restore_specific_backup
    rcases hdl2 : download_and_prepare_backup env with ⟨prepOk, t1⟩
    rw [hdl2] at hdl
    obtain ⟨b1, b2, b3, b4, b5, b6, oc, b7, b8, b9⟩ := env
    cases prepOk <;> cases b6 <;> cases oc <;> cases b7 <;> cases b8 <;>
      cases b9 <;>
      simp_all [restoreRemovalAttempted, List.any_append, hm]
  · simp [restore_specific_backup, hm, restoreRemovalAttempted]

theorem checkMembers_eq_false {members : List (List Char)} {m : List Char}
    (hm : m ∈ members) (hs : suspiciousName m = true) :
    checkMembers members = false := by
  induction members with
  | nil => cases hm
  | cons a t ih =>
    rcases List.mem_cons.mp hm with h | h
    · subst h
      simp [checkMembers, hs]
    · by_cases ha : suspiciousName a = true
      · simp [checkMembers, ha]
      · simp only [checkMembers]
        simp [ha, ih h]

/-- C6: an archive with at least one absolute or parent-traversal member
path is rejected by `decompress_archive` and nothing is extracted: the
member check runs over the entries before any extraction happens. -/
theorem C6_decompress_rejects_suspicious (members : List (List Char))
    (m : List Char) (hm : m ∈ members) (hs : suspiciousName m = true) :
    decompress_archive members = (false, []) := by
  simp [decompress_archive, checkMembers_eq_false hm hs]

/-- Witness for C6 at the archive `["../../etc/passwd"]`. -/
theorem C6_decompress_rejects_suspicious_witness :
    decompress_archive
      [['.', '.', '/', '.', '.', '/', 'e', 't', 'c', '/', 'p', 'a', 's', 's', 'w', 'd']]
      = (false, []) :=
  C6_decompress_rejects_suspicious _
    ['.', '.', '/', '.', '.', '/', 'e', 't', 'c', '/', 'p', 'a', 's', 's', 'w', 'd']
    (by decide) (by decide)

/-- C5: when the registry records no local backup path,
`perform_incremental_backup` fails without ever invoking
`mariadb.take_incremental_backup`. -/
theorem C5_incremental_without_base_fails (cfg : Config) (env : BackupEnv)
    (ts : Nat) (st : SysState)
    (h : get_latest_local_backup st.records = none) :
    (perform_incremental_backup cfg env ts st).1 = false ∧
      tookIncremental (perform_incremental_backup cfg env ts st).2.2 = false := by
  simp [perform_incremental_backup, incrementalBaseFound, h, tookIncremental,
    backupCleanup]

/-- Witness for C5 on a fresh install. -/
theorem C5_incremental_without_base_fails_witness :
    (perform_incremental_backup cfg0 envAllOk 1 st0).1 = false ∧
      tookIncremental (perform_incremental_backup cfg0 envAllOk 1 st0).2.2
        = false :=
  C5_incremental_without_base_fails cfg0 envAllOk 1 st0 (by decide)

/-- C3: any failure in the download/decompress/prepare phase (missing
bucket config, download failure, missing downloaded file, extraction
failure, or prepare failure) makes `restore_specific_backup` return
failure without ever invoking `stop_mariadb_server`. -/
theorem C3_phase_failure_never_stops_server (cfg : Config) (method : String)
    (env : RestoreEnv) (h : prepPhaseOk env = false) :
    (restore_specific_backup cfg method env).1 = false ∧
      stopAttempted (restore_specific_backup cfg method env).2 = false := by
  by_cases hm : validMethod method = true
  · obtain ⟨b1, b2, b3, b4, b5, b6, oc, b7, b8, b9⟩ := env
    simp only [prepPhaseOk, Bool.and_eq_false_iff] at h
    cases b1 <;> cases b2 <;> cases b3 <;> cases b4 <;> cases b5 <;>
      simp_all [restore_specific_backup, download_and_prepare_backup,
        stopAttempted]
  · simp [restore_specific_backup, hm, stopAttempted]

/-- Witness for C3: the download fails. -/
theorem C3_phase_failure_never_stops_server_witness :
    (restore_specific_backup cfg0 "copy-back"
        { renvAllOk with downloadOk := false }).1 = false ∧
      stopAttempted (restore_specific_backup cfg0 "copy-back"
        { renvAllOk with downloadOk := false }).2 = false :=
  C3_phase_failure_never_stops_server cfg0 "copy-back"
    { renvAllOk with downloadOk := false } (by decide)

/-- C2: whenever `restore_specific_backup` gets past a successful
`stop_mariadb_server`, `start_mariadb_server` is invoked exactly once,
after the successful stop, regardless of whether the
`mariadb.restore_backup` step succeeded, returned failure, or raised;
and when the restore step did not succeed the operation's result is
failure. -/
theorem C2_start_follows_successful_stop (cfg : Config) (method : String)
    (env : RestoreEnv) (hm : validMethod method = true)
    (hphase : prepPhaseOk env = true) (hstop : env.stopOk = true) :
    REvent.stop true ∈ (restore_specific_backup cfg method env).2 ∧
      countStart (restore_specific_backup cfg method env).2 = 1 ∧
      stopSuccessBeforeStart (restore_specific_backup cfg method env).2
        = true ∧
      (env.restoreOutcome ≠ Outcome.ok →
        (restore_specific_backup cfg method env).1 = false) := by
  obtain ⟨b1, b2, b3, b4, b5, b6, oc, b7, b8, b9⟩ := env
  simp only [prepPhaseOk, Bool.and_eq_true] at hphase
  obtain ⟨⟨⟨⟨h1, h2⟩, h3⟩, h4⟩, h5⟩ := hphase
  subst h1 h2 h3 h4 h5
  cases hstop
  cases oc <;> cases b7 <;> cases b8 <;> cases b9 <;>
    simp_all [restore_specific_backup, download_and_prepare_backup,
      countStart, stopSuccessBeforeStart]

/-- Witness for C2: the restore step returns failure, everything else
succeeds. -/
theorem C2_start_follows_successful_stop_witness :
    REvent.stop true ∈ (restore_specific_backup cfg0 "copy-back"
        { renvAllOk with restoreOutcome := Outcome.fail }).2 ∧
      countStart (restore_specific_backup cfg0 "copy-back"
        { renvAllOk with restoreOutcome := Outcome.fail }).2 = 1 ∧
      stopSuccessBeforeStart (restore_specific_backup cfg0 "copy-back"
        { renvAllOk with restoreOutcome := Outcome.fail }).2 = true ∧
      ({ renvAllOk with restoreOutcome := Outcome.fail }.restoreOutcome
          ≠ Outcome.ok →
        (restore_specific_backup cfg0 "copy-back"
          { renvAllOk with restoreOutcome := Outcome.fail }).1 = false) :=
  C2_start_follows_successful_stop cfg0 "copy-back"
    { renvAllOk with restoreOutcome := Outcome.fail }
    (by decide) (by decide) (by decide)

/-- C10: when the archive upload succeeds but the metadata-record write
fails, `perform_full_backup` and `perform_incremental_backup` still
return success, and nothing is persisted to the registry — the result of
`record_backup_metadata` is never checked. -/
theorem C10_registry_failure_never_changes_result (cfg : Config)
    (env : BackupEnv) (ts : Nat) (st : SysState)
    (htake : env.takeFullOk = true) (hprep : env.prepareOk = true)
    (hcopy : env.copyOk = true) (hcomp : env.compressOk = true)
    (hup : env.uploadOk = true) (hrec : env.recordOk = false) :
    ((perform_full_backup cfg env ts st).1 = true ∧
      uploadSucceeded (perform_full_backup cfg env ts st).2.2 = true ∧
      (perform_full_backup cfg env ts st).2.1.records = st.records) ∧
    (∀ base, incrementalBaseFound cfg ts st = some base →
      env.takeIncOk = true →
      (perform_incremental_backup cfg env ts st).1 = true ∧
        uploadSucceeded (perform_incremental_backup cfg env ts st).2.2
          = true ∧
        (perform_incremental_backup cfg env ts st).2.1.records
          = st.records) := by
  constructor
  · simp [perform_full_backup, htake, hprep, hcopy, hcomp, hup, hrec,
      record_backup_metadata, uploadSucceeded, backupCleanup]
  · intro base hbase htakeInc
    simp [perform_incremental_backup, hbase, htakeInc, hcopy, hcomp, hup,
      hrec, record_backup_metadata, uploadSucceeded, backupCleanup]

/-- Witness for C10: a fully successful run except for the registry
write, over a state holding one recorded full backup whose chain member
is still on disk. -/
theorem C10_registry_failure_never_changes_result_witness :
    (((perform_full_backup cfg0 envRecFail 2 stOneFull).1 = true ∧
      uploadSucceeded (perform_full_backup cfg0 envRecFail 2 stOneFull).2.2
        = true ∧
      (perform_full_backup cfg0 envRecFail 2 stOneFull).2.1.records
        = stOneFull.records) ∧
    (∀ base, incrementalBaseFound cfg0 2 stOneFull = some base →
      envRecFail.takeIncOk = true →
      (perform_incremental_backup cfg0 envRecFail 2 stOneFull).1 = true ∧
        uploadSucceeded
          (perform_incremental_backup cfg0 envRecFail 2 stOneFull).2.2
          = true ∧
        (perform_incremental_backup cfg0 envRecFail 2 stOneFull).2.1.records
          = stOneFull.records)) :=
  C10_registry_failure_never_changes_result cfg0 envRecFail 2 stOneFull
    (by decide) (by decide) (by decide) (by decide) (by decide) (by decide)

/-- C1 counterexample: with every step succeeding except the registry
write, `perform_full_backup`'s upload succeeds yet no `BackupRecord` is
persisted, so "a record exists iff the archive upload succeeded" fails. -/
theorem C1_record_iff_upload_cex :
    uploadSucceeded (perform_full_backup cfg0 envRecFail 1 st0).2.2 = true ∧
      (perform_full_backup cfg0 envRecFail 1 st0).2.1.records = [] := by
  decide

/-- C1 amended: a record is written only for a backup whose archive
upload succeeded, and whenever the upload succeeds the record write is
attempted and persists a `status='success'` row provided the registry
write itself succeeds; a registry failure leaves the registry unchanged
(and, per C10, is not reported). -/
theorem C1_record_only_with_upload (cfg : Config) (env : BackupEnv)
    (ts : Nat) (st : SysState) :
    ((perform_full_backup cfg env ts st).2.1.records ≠ st.records →
      uploadSucceeded (perform_full_backup cfg env ts st).2.2 = true) ∧
    (uploadSucceeded (perform_full_backup cfg env ts st).2.2 = true →
      env.recordOk = true →
      (perform_full_backup cfg env ts st).2.1.records
        = st.records ++ [⟨"full", cfg.fullBackupPrefix,
            some (chainPath cfg ("full_" ++ toString ts)), ts, "success"⟩]) ∧
    (env.recordOk = false →
      (perform_full_backup cfg env ts st).2.1.records = st.records) ∧
    ((perform_incremental_backup cfg env ts st).2.1.records ≠ st.records →
      uploadSucceeded (perform_incremental_backup cfg env ts st).2.2
        = true) ∧
    (uploadSucceeded (perform_incremental_backup cfg env ts st).2.2 = true →
      env.recordOk = true →
      (perform_incremental_backup cfg env ts st).2.1.records
        = st.records ++ [⟨"incremental", cfg.incrementalBackupPrefix,
            some (chainPath cfg ("inc_" ++ toString ts)), ts, "success"⟩]) ∧
    (env.recordOk = false →
      (perform_incremental_backup cfg env ts st).2.1.records = st.records) := by
  rw [full_records_eq, full_upload_eq, inc_records_eq, inc_upload_eq]
  obtain ⟨tf, ti, pp, cp, cm, up, rc, r1, r2⟩ := env
  cases hb : (incrementalBaseFound cfg ts st).isSome <;>
    cases tf <;> cases ti <;> cases pp <;> cases cp <;> cases cm <;>
      cases up <;> cases rc <;> simp [hb]

/-- Witness for C1 (amended) on a fresh install with every call
succeeding. -/
theorem C1_record_only_with_upload_witness :
    (((perform_full_backup cfg0 envAllOk 1 st0).2.1.records ≠ st0.records →
      uploadSucceeded (perform_full_backup cfg0 envAllOk 1 st0).2.2 = true) ∧
    (uploadSucceeded (perform_full_backup cfg0 envAllOk 1 st0).2.2 = true →
      envAllOk.recordOk = true →
      (perform_full_backup cfg0 envAllOk 1 st0).2.1.records
        = st0.records ++ [⟨"full", cfg0.fullBackupPrefix,
            some (chainPath cfg0 ("full_" ++ toString 1)), 1, "success"⟩]) ∧
    (envAllOk.recordOk = false →
      (perform_full_backup cfg0 envAllOk 1 st0).2.1.records = st0.records) ∧
    ((perform_incremental_backup cfg0 envAllOk 1 st0).2.1.records
        ≠ st0.records →
      uploadSucceeded (perform_incremental_backup cfg0 envAllOk 1 st0).2.2
        = true) ∧
    (uploadSucceeded (perform_incremental_backup cfg0 envAllOk 1 st0).2.2
        = true →
      envAllOk.recordOk = true →
      (perform_incremental_backup cfg0 envAllOk 1 st0).2.1.records
        = st0.records ++ [⟨"incremental", cfg0.incrementalBackupPrefix,
            some (chainPath cfg0 ("inc_" ++ toString 1)), 1, "success"⟩]) ∧
    (envAllOk.recordOk = false →
      (perform_incremental_backup cfg0 envAllOk 1 st0).2.1.records
        = st0.records)) :=
  C1_record_only_with_upload cfg0 envAllOk 1 st0

/-- C4 counterexample: when `mariadb.take_full_backup` fails, the
operation returns failure, yet a (still empty) member subdirectory has
already appeared under the chain root — `os.makedirs(backup_dir)` runs
before the backup tool — so "a member appears iff the backup-tool step
already succeeded" fails. -/
theorem C4_member_iff_tool_cex :
    (perform_full_backup cfg0 envTakeFail 1 st0).2.1.chain
        = [⟨"full_1", false⟩] ∧
      (perform_full_backup cfg0 envTakeFail 1 st0).1 = false ∧
      BEvent.takeFull false ∈ (perform_full_backup cfg0 envTakeFail 1 st0).2.2 := by
  decide

/-- C4 amended: each backup operation creates its member directory under
the chain root at operation start, before the backup tool runs (so an
empty member directory appears even when the tool step fails); the
member's contents are copied in exactly when the backup-tool step (and,
for full backups, the prepare step) and the copy succeeded; and once
present a member is never removed by later failures (upload or metadata
write) of the same operation — the upload and registry outcomes do not
appear in the chain equations at all. -/
theorem C4_member_population (cfg : Config) (env : BackupEnv) (ts : Nat)
    (st : SysState)
    (hfresh : ∀ m ∈ st.chain, m.name ≠ "inc_" ++ toString ts) :
    (perform_full_backup cfg env ts st).2.1.chain =
        [⟨"full_" ++ toString ts,
          env.takeFullOk && env.prepareOk && env.copyOk⟩] ∧
      (perform_incremental_backup cfg env ts st).2.1.chain =
        st.chain ++ [⟨"inc_" ++ toString ts,
          (incrementalBaseFound cfg ts st).isSome && env.takeIncOk &&
            env.copyOk⟩] :=
  ⟨full_chain_eq cfg env ts st, inc_chain_eq cfg env ts st hfresh⟩

/-- Witness for C4 (amended): a failed upload on a state with one
recorded full backup. -/
theorem C4_member_population_witness :
    ((perform_full_backup cfg0 envUploadFail 2 stOneFull).2.1.chain =
        [⟨"full_" ++ toString 2,
          envUploadFail.takeFullOk && envUploadFail.prepareOk &&
            envUploadFail.copyOk⟩] ∧
      (perform_incremental_backup cfg0 envUploadFail 2 stOneFull).2.1.chain =
        stOneFull.chain ++ [⟨"inc_" ++ toString 2,
          (incrementalBaseFound cfg0 2 stOneFull).isSome &&
            envUploadFail.takeIncOk && envUploadFail.copyOk⟩]) :=
  C4_member_population cfg0 envUploadFail 2 stOneFull (by decide)

/-- C7 counterexample: after a full backup whose chain copy succeeded but
whose upload failed, the chain member is on disk and populated, yet the
following `perform_incremental_backup` fails without invoking the backup
tool — the base lookup reads the metadata registry, which recorded
nothing because the upload failed. -/
theorem C7_incremental_after_failed_upload_cex :
    (perform_full_backup cfg0 envUploadFail 1 st0).2.1.chain
        = [⟨"full_1", true⟩] ∧
      (perform_incremental_backup cfg0 envAllOk 2
        (perform_full_backup cfg0 envUploadFail 1 st0).2.1).1 = false ∧
      tookIncremental (perform_incremental_backup cfg0 envAllOk 2
        (perform_full_backup cfg0 envUploadFail 1 st0).2.1).2.2 = false := by
  decide

/-- C7 amended: the chain copy made before the remote step does survive a
failed upload (the member is present and populated), but it does not
suffice as an incremental base: the base lookup goes through the
metadata registry, which gained no record for the failed-upload backup,
so the following `perform_incremental_backup` fails without invoking the
backup tool (provided no stale registry row happens to point at one of
the two fresh member paths). -/
theorem C7_incremental_after_failed_upload (cfg : Config)
    (env1 env2 : BackupEnv) (ts1 ts2 : Nat) (st : SysState)
    (htake : env1.takeFullOk = true) (hprep : env1.prepareOk = true)
    (hcopy : env1.copyOk = true) (hup : env1.uploadOk = false)
    (hnocol : ∀ r ∈ st.records, ∀ p, r.localPath = some p →
      p ≠ chainPath cfg ("full_" ++ toString ts1) ∧
        p ≠ chainPath cfg ("inc_" ++ toString ts2)) :
    (perform_full_backup cfg env1 ts1 st).1 = false ∧
      (perform_full_backup cfg env1 ts1 st).2.1.chain
        = [⟨"full_" ++ toString ts1, true⟩] ∧
      (perform_full_backup cfg env1 ts1 st).2.1.records = st.records ∧
      (perform_incremental_backup cfg env2 ts2
        (perform_full_backup cfg env1 ts1 st).2.1).1 = false ∧
      tookIncremental (perform_incremental_backup cfg env2 ts2
        (perform_full_backup cfg env1 ts1 st).2.1).2.2 = false := by
  have hres : (perform_full_backup cfg env1 ts1 st).1 = false := by
    rw [full_result_eq]
    simp [hup]
  have hchain : (perform_full_backup cfg env1 ts1 st).2.1.chain
      = [⟨"full_" ++ toString ts1, true⟩] := by
    rw [full_chain_eq]
    simp [htake, hprep, hcopy]
  have hrecords : (perform_full_backup cfg env1 ts1 st).2.1.records
      = st.records := by
    rw [full_records_eq]
    simp [hup]
  have hnobase : incrementalBaseFound cfg ts2
      (perform_full_backup cfg env1 ts1 st).2.1 = none := by
    unfold incrementalBaseFound
    rw [hrecords]
    rcases hg : get_latest_local_backup st.records with _ | p
    · rfl
    · obtain ⟨r, hr, hp⟩ := get_latest_local_backup_mem hg
      obtain ⟨hp1, hp2⟩ := hnocol r hr p hp
      have hpe : pathExists cfg
          (addMember (perform_full_backup cfg env1 ts1 st).2.1
            ("inc_" ++ toString ts2)) p = false := by
        unfold addMember pathExists
        rw [hchain]
        by_cases hdup : ("full_" ++ toString ts1) = ("inc_" ++ toString ts2)
        · simp [hdup, hchain, Ne.symm hp1, Ne.symm hp2]
        · simp [hdup, Ne.symm hp1, Ne.symm hp2]
      simp [hpe]
  obtain ⟨hr1, hr2⟩ := inc_nobase_no_tool cfg env2 ts2
    (perform_full_backup cfg env1 ts1 st).2.1 hnobase
  exact ⟨hres, hchain, hrecords, hr1, hr2⟩

/-- Witness for C7 (amended) on a fresh install. -/
theorem C7_incremental_after_failed_upload_witness :
    ((perform_full_backup cfg0 envUploadFail 1 st0).1 = false ∧
      (perform_full_backup cfg0 envUploadFail 1 st0).2.1.chain
        = [⟨"full_" ++ toString 1, true⟩] ∧
      (perform_full_backup cfg0 envUploadFail 1 st0).2.1.records
        = st0.records ∧
      (perform_incremental_backup cfg0 envAllOk 2
        (perform_full_backup cfg0 envUploadFail 1 st0).2.1).1 = false ∧
      tookIncremental (perform_incremental_backup cfg0 envAllOk 2
        (perform_full_backup cfg0 envUploadFail 1 st0).2.1).2.2 = false) :=
  C7_incremental_after_failed_upload cfg0 envUploadFail envAllOk 1 2 st0
    (by decide) (by decide) (by decide) (by decide)
    (by intro r hr; simp [st0] at hr)

/-- C8, evaluated at the failing input: two successive successful full
backups, taken at distinct timestamps, both upload their archive under
the identical object key — the bare configured prefix `backups/full/`.
`perform_full_backup` passes `s3_prefix = config.get('FULL_BACKUP_PREFIX')`
to `s3.upload_file` unchanged, so no timestamp is embedded in the key and
distinct backups do not occupy distinct keys. -/
theorem C8_upload_key_has_no_timestamp :
    uploadKeys (perform_full_backup cfg0 envAllOk 1 st0).2.2
        = [cfg0.fullBackupPrefix] ∧
      uploadKeys (perform_full_backup cfg0 envAllOk 2
        (perform_full_backup cfg0 envAllOk 1 st0).2.1).2.2
        = [cfg0.fullBackupPrefix] ∧
      cfg0.fullBackupPrefix = "backups/full/" := by
  decide

/-- C9 counterexample: a (successful) restore operation uses the shared
`LOCAL_TEMP_DIR` itself as its staging area and never attempts its
removal at operation end, so "removal is attempted at operation end for
every backup or restore operation" fails. -/
theorem C9_staging_cleanup_cex :
    (restore_specific_backup cfg0 "copy-back" renvAllOk).1 = true ∧
      REvent.mkStaging cfg0.localTempDir
        ∈ (restore_specific_backup cfg0 "copy-back" renvAllOk).2 ∧
      restoreRemovalAttempted
        (restore_specific_backup cfg0 "copy-back" renvAllOk).2 = false := by
  decide

/-- C9 amended: each backup operation creates a fresh timestamped staging
directory at start and always attempts its removal at operation end,
with the removal outcomes never changing the operation's result; the
restore operation instead reuses `LOCAL_TEMP_DIR` itself as its staging
area and never attempts any removal. -/
theorem C9_staging_cleanup (cfg : Config) (env : BackupEnv)
    (renv : RestoreEnv) (method : String) (ts : Nat) (st : SysState)
    (a b : Bool) :
    (BEvent.mkStaging (cfg.localTempDir ++ "/full_" ++ toString ts)
        ∈ (perform_full_backup cfg env ts st).2.2 ∧
      stagingRemovalAttempted (perform_full_backup cfg env ts st).2.2
        = true ∧
      (perform_full_backup cfg
          { env with rmStagingOk := a, rmArchiveOk := b } ts st).1
        = (perform_full_backup cfg env ts st).1) ∧
    (BEvent.mkStaging (cfg.localTempDir ++ "/inc_" ++ toString ts)
        ∈ (perform_incremental_backup cfg env ts st).2.2 ∧
      stagingRemovalAttempted (perform_incremental_backup cfg env ts st).2.2
        = true ∧
      (perform_incremental_backup cfg
          { env with rmStagingOk := a, rmArchiveOk := b } ts st).1
        = (perform_incremental_backup cfg env ts st).1) ∧
    restoreRemovalAttempted (restore_specific_backup cfg method renv).2
      = false := by
  refine ⟨⟨?_, ?_, ?_⟩, ⟨?_, ?_, ?_⟩, restore_trace_no_removal cfg method renv⟩
  · obtain ⟨tf, ti, pp, cp, cm, up, rc, r1, r2⟩ := env
    cases tf <;> cases pp <;> cases cp <;> cases cm <;> cases up <;>
      simp [perform_full_backup, backupCleanup]
  · obtain ⟨tf, ti, pp, cp, cm, up, rc, r1, r2⟩ := env
    cases tf <;> cases pp <;> cases cp <;> cases cm <;> cases up <;>
      simp [perform_full_backup, backupCleanup, stagingRemovalAttempted]
  · rw [full_result_eq, full_result_eq]
  · obtain ⟨tf, ti, pp, cp, cm, up, rc, r1, r2⟩ := env
    rcases hb : incrementalBaseFound cfg ts st with _ | base <;>
      cases ti <;> cases cp <;> cases cm <;> cases up <;>
        simp [perform_incremental_backup, hb, backupCleanup]
  · obtain ⟨tf, ti, pp, cp, cm, up, rc, r1, r2⟩ := env
    rcases hb : incrementalBaseFound cfg ts st with _ | base <;>
      cases ti <;> cases cp <;> cases cm <;> cases up <;>
        simp [perform_incremental_backup, hb, backupCleanup,
          stagingRemovalAttempted]
  · rw [inc_result_eq, inc_result_eq]

end Backupmate
